import Mathlib

/-!
Shallow embedding of the watch-party room server (socket.io backend).

The embedding follows the latest source revision (the file with bore votes
and the recommendation queue).  JavaScript `Map`s and plain objects are
modelled as association lists in insertion order, `Set`s as duplicate-free
lists in insertion order, socket identifiers and room identifiers as
strings, playback times as integers (`Math.max (:= max)` clamping and
integer addition are exact on the values the handlers produce), and vote
tallies as naturals (`Math.max(c - 1, 0)` on a natural tally is truncated
subtraction).  The JavaScript quorum comparison `count >= size / 2`
(respectively `count > size / 2`) over small nonnegative integers is written
exactly as `2 * count >= size` (respectively `2 * count > size`).

Each inbound socket event becomes a constructor of `Event`; a handler maps
the room registry to the new registry together with the list of outbound
emissions, tagged with their scope (`socket.emit`, `socket.to(room).emit`,
`io.to(room).emit`, `io.socketsLeave`).  The body of the `setTimeout`
scheduled by a skip request is modelled as the separately deliverable event
`Event.skipExpire`.
-/

namespace WatchParty

/-- Lookup in an insertion-ordered association list (JavaScript `Map.get`,
and property read on a plain object). -/
def mapGet {α : Type} : List (String × α) → String → Option α
  | [], _ => none
  | (k, v) :: rest, key => if k = key then some v else mapGet rest key

/-- Update or insert in an insertion-ordered association list (JavaScript
`Map.set`, and property write on a plain object): an existing key keeps its
position, a new key is appended. -/
def mapSet {α : Type} : List (String × α) → String → α → List (String × α)
  | [], key, val => [(key, val)]
  | (k, v) :: rest, key, val =>
      if k = key then (key, val) :: rest else (k, v) :: mapSet rest key val

/-- Key membership (JavaScript `Map.has`). -/
def mapHasKey {α : Type} (m : List (String × α)) (key : String) : Bool :=
  (mapGet m key).isSome

/-- Key removal (JavaScript `Map.delete`). -/
def mapDeleteKey {α : Type} : List (String × α) → String → List (String × α)
  | [], _ => []
  | (k, v) :: rest, key =>
      if k = key then rest else (k, v) :: mapDeleteKey rest key

/-- Values in insertion order (JavaScript `Array.from(map.values())`). -/
def mapValues {α : Type} (m : List (String × α)) : List α :=
  m.map Prod.snd

/-- Tally read on the skip-count object: `skipCounts[direction] || 0`
(an absent key reads as 0; a stored 0 is also falsy and reads as 0). -/
def objGet (m : List (String × Nat)) (k : String) : Nat :=
  (mapGet m k).getD 0

/-- Set insertion (JavaScript `Set.add`): a no-op on a present element,
otherwise appended. -/
def addSet (s : List String) (x : String) : List String :=
  if x ∈ s then s else s ++ [x]

/-- Room state: `roomId => { hostId, videoId, currentTime, isPlaying,
skipCounts, skipUsers, users, password, boreVotes, recommendQueue }`. -/
structure Room where
  hostId : String
  videoId : String
  currentTime : Int
  isPlaying : Bool
  skipCounts : List (String × Nat)
  skipUsers : List String
  users : List (String × String)
  password : Option String
  boreVotes : List String
  recommendQueue : List String
deriving DecidableEq, Repr

/-- The room registry `rooms`, a `Map` in insertion order. -/
abbrev Rooms := List (String × Room)

/-- Payloads of outbound socket emissions. -/
inductive Payload where
  | roomCreated (roomId : String)
  | roomData (videoId : String) (isHost : Bool) (currentTime : Int)
      (isPlaying : Bool) (skipCounts : List (String × Nat)) (usersCount : Nat)
      (userList : List String) (isLocked : Bool) (recommendQueue : List String)
  | errorMsg (message : String)
  | userListUpdate (names : List String)
  | videoPlayEv
  | videoPauseEv
  | videoSeekEv (time : Int)
  | videoChanged (videoId : String) (currentTime : Int) (isPlaying : Bool)
      (skipCounts : List (String × Nat))
  | recommendQueueUpdated (queue : List String)
  | boreVoteUpdate (count : Nat)
  | skipCountsUpdate (counts : List (String × Nat))
  | roomClosed
deriving DecidableEq, Repr

/-- An outbound emission together with its scope: `socket.emit` goes to the
sender only, `socket.to(roomId).emit` to the room group minus the sender,
`io.to(roomId).emit` to the whole room group, and `io.socketsLeave(roomId)`
evicts every connection from the room group. -/
inductive Out where
  | toSender (sid : String) (p : Payload)
  | toRoomExceptSender (roomId sid : String) (p : Payload)
  | toRoom (roomId : String) (p : Payload)
  | socketsLeave (roomId : String)
deriving DecidableEq, Repr

/-- Inbound events, each carrying the sender's socket id. `skipExpire` is
the body of the 2-second `setTimeout` scheduled by a skip request. -/
inductive Event where
  | createRoom (sid roomId videoId : String) (password : Option String)
  | joinRoom (sid roomId nickname : String) (password : Option String)
  | hostCurrentTimeUpdate (sid roomId : String) (currentTime : Int)
  | videoPlay (sid roomId : String)
  | videoPause (sid roomId : String)
  | videoSeek (sid roomId : String) (time : Int)
  | changeVideo (sid roomId newVideoId : String)
  | addRecommendVideo (sid roomId videoId : String)
  | videoEnded (sid roomId : String)
  | boreVote (sid roomId : String)
  | skipRequest (sid roomId direction : String)
  | skipExpire (sid roomId direction : String)
  | disconnect (sid : String)
deriving DecidableEq, Repr

/-- Handler for `create_room`: installs a fresh room keyed by `roomId`
(silently overwriting an existing one), with the sender as host, an empty
participant map, and `password || null` stored. -/
def handleCreateRoom (rooms : Rooms) (sid roomId videoId : String)
    (password : Option String) : Rooms × List Out :=
  let stored : Option String :=
    match password with
    | some s => if s = "" then none else some s
    | none => none
  (mapSet rooms roomId
    { hostId := sid, videoId := videoId, currentTime := 0, isPlaying := false,
      skipCounts := [("forward", 0), ("backward", 0)], skipUsers := [],
      users := [], password := stored, boreVotes := [], recommendQueue := [] },
   [Out.toSender sid (Payload.roomCreated roomId)])

/-- Handler for `join_room`: unknown room emits the not-found error; a wrong
password for a locked room emits the password error (the host skips the
check); otherwise the sender is added to the participant map, receives
`room_data`, and the room receives `user_list_update`. -/
def handleJoinRoom (rooms : Rooms) (sid roomId nickname : String)
    (password : Option String) : Rooms × List Out :=
  match mapGet rooms roomId with
  | none => (rooms, [Out.toSender sid (Payload.errorMsg "존재하지 않는 방입니다.")])
  | some room =>
      if sid ≠ room.hostId ∧ room.password.isSome ∧ password ≠ room.password then
        (rooms, [Out.toSender sid (Payload.errorMsg "비밀번호가 틀렸습니다.")])
      else
        let users' := mapSet room.users sid nickname
        let room' := { room with users := users' }
        (mapSet rooms roomId room',
         [Out.toSender sid
            (Payload.roomData room.videoId (sid == room.hostId) room.currentTime
              room.isPlaying room.skipCounts users'.length (mapValues users')
              room.password.isSome room.recommendQueue),
          Out.toRoom roomId (Payload.userListUpdate (mapValues users'))])

/-- Handler for `host_current_time_update`: host-only server-side cache of
`currentTime`, stored as sent, with no broadcast. -/
def handleHostCurrentTimeUpdate (rooms : Rooms) (sid roomId : String)
    (currentTime : Int) : Rooms × List Out :=
  match mapGet rooms roomId with
  | none => (rooms, [])
  | some room =>
      if sid ≠ room.hostId then (rooms, [])
      else (mapSet rooms roomId { room with currentTime := currentTime }, [])

/-- Handler for `video_play`: host-only; sets `isPlaying` and broadcasts to
the room minus the sender. -/
def handleVideoPlay (rooms : Rooms) (sid roomId : String) : Rooms × List Out :=
  match mapGet rooms roomId with
  | none => (rooms, [])
  | some room =>
      if sid ≠ room.hostId then (rooms, [])
      else
        (mapSet rooms roomId { room with isPlaying := true },
         [Out.toRoomExceptSender roomId sid Payload.videoPlayEv])

/-- Handler for `video_pause`: host-only; clears `isPlaying` and broadcasts
to the room minus the sender. -/
def handleVideoPause (rooms : Rooms) (sid roomId : String) : Rooms × List Out :=
  match mapGet rooms roomId with
  | none => (rooms, [])
  | some room =>
      if sid ≠ room.hostId then (rooms, [])
      else
        (mapSet rooms roomId { room with isPlaying := false },
         [Out.toRoomExceptSender roomId sid Payload.videoPauseEv])

/-- Handler for `video_seek`: host-only; stores the sent time verbatim (no
clamping) and broadcasts it to the room minus the sender. -/
def handleVideoSeek (rooms : Rooms) (sid roomId : String) (time : Int) :
    Rooms × List Out :=
  match mapGet rooms roomId with
  | none => (rooms, [])
  | some room =>
      if sid ≠ room.hostId then (rooms, [])
      else
        (mapSet rooms roomId { room with currentTime := time },
         [Out.toRoomExceptSender roomId sid (Payload.videoSeekEv time)])

/-- Handler for `change_video`: host-only; sets the new video, resets
`currentTime` to 0, sets `isPlaying` to true, resets the skip tallies and
the skip voter set (the bore-vote set is left untouched), and broadcasts
`video_changed` to the whole room. -/
def handleChangeVideo (rooms : Rooms) (sid roomId newVideoId : String) :
    Rooms × List Out :=
  match mapGet rooms roomId with
  | none => (rooms, [])
  | some room =>
      if sid ≠ room.hostId then (rooms, [])
      else
        let room' := { room with
          videoId := newVideoId, currentTime := 0, isPlaying := true,
          skipCounts := [("forward", 0), ("backward", 0)], skipUsers := [] }
        (mapSet rooms roomId room',
         [Out.toRoom roomId
            (Payload.videoChanged newVideoId 0 true room'.skipCounts)])

/-- Handler for `add_recommend_video`: appends to the recommendation queue
and broadcasts the full queue (the commented-out auto-advance block of the
source is not part of the behaviour). -/
def handleAddRecommendVideo (rooms : Rooms) (sid roomId videoId : String) :
    Rooms × List Out :=
  match mapGet rooms roomId with
  | none => (rooms, [])
  | some room =>
      let room' := { room with recommendQueue := room.recommendQueue ++ [videoId] }
      (mapSet rooms roomId room',
       [Out.toRoom roomId (Payload.recommendQueueUpdated room'.recommendQueue)])

/-- Handler for `video_ended`: host-only; dequeues and advances when the
recommendation queue is non-empty, otherwise pauses; in both branches the
bore-vote set is cleared and a tally of 0 broadcast. -/
def handleVideoEnded (rooms : Rooms) (sid roomId : String) : Rooms × List Out :=
  match mapGet rooms roomId with
  | none => (rooms, [])
  | some room =>
      if sid ≠ room.hostId then (rooms, [])
      else
        match room.recommendQueue with
        | next :: restQueue =>
            let room' := { room with
              videoId := next, currentTime := 0, isPlaying := true,
              recommendQueue := restQueue, boreVotes := [] }
            (mapSet rooms roomId room',
             [Out.toRoom roomId
                (Payload.videoChanged next 0 true [("forward", 0), ("backward", 0)]),
              Out.toRoom roomId (Payload.recommendQueueUpdated restQueue),
              Out.toRoom roomId (Payload.boreVoteUpdate 0)])
        | [] =>
            let room' := { room with isPlaying := false, boreVotes := [] }
            (mapSet rooms roomId room',
             [Out.toRoom roomId (Payload.boreVoteUpdate 0)])

/-- Handler for `bore_vote`: dedupes on the bore-vote set, records the vote,
broadcasts the tally, and on strict majority (`size > totalUsers / 2`,
written `2 * size > totalUsers`) advances to the next recommended video or
pauses, then clears the set and broadcasts tally 0. -/
def handleBoreVote (rooms : Rooms) (sid roomId : String) : Rooms × List Out :=
  match mapGet rooms roomId with
  | none => (rooms, [])
  | some room =>
      if sid ∈ room.boreVotes then (rooms, [])
      else
        let votes := addSet room.boreVotes sid
        let tallyOut := Out.toRoom roomId (Payload.boreVoteUpdate votes.length)
        if 2 * votes.length > room.users.length then
          match room.recommendQueue with
          | next :: restQueue =>
              let room' := { room with
                videoId := next, currentTime := 0, isPlaying := true,
                recommendQueue := restQueue, boreVotes := [] }
              (mapSet rooms roomId room',
               [tallyOut,
                Out.toRoom roomId
                  (Payload.videoChanged next 0 true [("forward", 0), ("backward", 0)]),
                Out.toRoom roomId (Payload.recommendQueueUpdated restQueue),
                Out.toRoom roomId (Payload.boreVoteUpdate 0)])
          | [] =>
              let room' := { room with isPlaying := false, boreVotes := [] }
              (mapSet rooms roomId room',
               [tallyOut, Out.toRoom roomId (Payload.boreVoteUpdate 0)])
        else
          (mapSet rooms roomId { room with boreVotes := votes }, [tallyOut])

/-- Handler for `skip_request`: dedupes on the skip voter set, records the
vote under the sent direction key (`skipCounts[direction] || 0` plus one),
and on majority (`count >= roomSize / 2`, written `2 * count >= roomSize`)
clamps `currentTime + skipSeconds` at 0 with `skipSeconds` 10 for the exact
string "forward" and -10 otherwise, resets tallies and voter set, and
broadcasts the seek and the reset tally; otherwise broadcasts the updated
tally.  The scheduled expiry is the separate event `Event.skipExpire`. -/
def handleSkipRequest (rooms : Rooms) (sid roomId direction : String) :
    Rooms × List Out :=
  match mapGet rooms roomId with
  | none => (rooms, [])
  | some room =>
      if sid ∈ room.skipUsers then (rooms, [])
      else
        let newCount := objGet room.skipCounts direction + 1
        if 2 * newCount ≥ room.users.length then
          let skipSeconds : Int := if direction = "forward" then 10 else -10
          let newTime := max (room.currentTime + skipSeconds) 0
          let room' := { room with
            currentTime := newTime,
            skipCounts := [("forward", 0), ("backward", 0)], skipUsers := [] }
          (mapSet rooms roomId room',
           [Out.toRoom roomId (Payload.videoSeekEv newTime),
            Out.toRoom roomId (Payload.skipCountsUpdate room'.skipCounts)])
        else
          let room' := { room with
            skipCounts := mapSet room.skipCounts direction newCount,
            skipUsers := addSet room.skipUsers sid }
          (mapSet rooms roomId room',
           [Out.toRoom roomId (Payload.skipCountsUpdate room'.skipCounts)])

/-- Body of the `setTimeout` scheduled by a skip request: removes the voter
from the skip voter set, decrements the direction's tally with
`Math.max(c - 1, 0)` (truncated subtraction on a natural tally), and
rebroadcasts the tally.  It runs unconditionally 2 seconds after the vote,
with no check that the vote is still pending.  On a direction key absent
from the tally object the original computes `undefined - 1 = NaN` and
stores it, which every subsequent tally read coerces back to 0 through
`|| 0`; the embedding stores the 0 directly. -/
def handleSkipExpire (rooms : Rooms) (sid roomId direction : String) :
    Rooms × List Out :=
  match mapGet rooms roomId with
  | none => (rooms, [])
  | some room =>
      let room' := { room with
        skipUsers := room.skipUsers.erase sid,
        skipCounts := mapSet room.skipCounts direction
          (objGet room.skipCounts direction - 1) }
      (mapSet rooms roomId room',
       [Out.toRoom roomId (Payload.skipCountsUpdate room'.skipCounts)])

/-- Disconnect scan: walks the registry in insertion order, processes the
first room whose participant map contains the departing connection and stops
there.  A departing host deletes the room, broadcasts `room_closed` and
evicts the group; a departing guest only updates the user list. -/
def disconnectScan (sid : String) : Rooms → Rooms × List Out
  | [] => ([], [])
  | (rid, room) :: rest =>
      if mapHasKey room.users sid then
        let users' := mapDeleteKey room.users sid
        if room.hostId = sid then
          (rest, [Out.toRoom rid Payload.roomClosed, Out.socketsLeave rid])
        else
          ((rid, { room with users := users' }) :: rest,
           [Out.toRoom rid (Payload.userListUpdate (mapValues users'))])
      else
        let r := disconnectScan sid rest
        ((rid, room) :: r.1, r.2)

/-- Dispatch of an inbound event to its handler. -/
def step (rooms : Rooms) : Event → Rooms × List Out
  | Event.createRoom sid roomId videoId password =>
      handleCreateRoom rooms sid roomId videoId password
  | Event.joinRoom sid roomId nickname password =>
      handleJoinRoom rooms sid roomId nickname password
  | Event.hostCurrentTimeUpdate sid roomId currentTime =>
      handleHostCurrentTimeUpdate rooms sid roomId currentTime
  | Event.videoPlay sid roomId => handleVideoPlay rooms sid roomId
  | Event.videoPause sid roomId => handleVideoPause rooms sid roomId
  | Event.videoSeek sid roomId time => handleVideoSeek rooms sid roomId time
  | Event.changeVideo sid roomId newVideoId =>
      handleChangeVideo rooms sid roomId newVideoId
  | Event.addRecommendVideo sid roomId videoId =>
      handleAddRecommendVideo rooms sid roomId videoId
  | Event.videoEnded sid roomId => handleVideoEnded rooms sid roomId
  | Event.boreVote sid roomId => handleBoreVote rooms sid roomId
  | Event.skipRequest sid roomId direction =>
      handleSkipRequest rooms sid roomId direction
  | Event.skipExpire sid roomId direction =>
      handleSkipExpire rooms sid roomId direction
  | Event.disconnect sid => disconnectScan sid rooms

/-- Folds a sequence of events over the registry, keeping only the state. -/
def processAll (rooms : Rooms) (es : List Event) : Rooms :=
  es.foldl (fun s e => (step s e).1) rooms

/-- Nonnegativity of `currentTime` for every room in the registry. -/
def invariantCT (rooms : Rooms) : Prop :=
  ∀ p ∈ rooms, 0 ≤ p.2.currentTime

instance (rooms : Rooms) : Decidable (invariantCT rooms) :=
  inferInstanceAs (Decidable (∀ p ∈ rooms, 0 ≤ p.2.currentTime))

/-- An event carries only nonnegative playback times: restricts the payload
of `video_seek` and `host_current_time_update`, the two handlers that store
a caller-supplied time verbatim. -/
def timesOk : Event → Bool
  | Event.videoSeek _ _ t => decide (0 ≤ t)
  | Event.hostCurrentTimeUpdate _ _ t => decide (0 ≤ t)
  | _ => true

theorem mapGet_mem {α : Type} {m : List (String × α)} {k : String} {v : α}
    (h : mapGet m k = some v) : (k, v) ∈ m := by
  induction m with
  | nil => simp [mapGet] at h
  | cons p rest ih =>
      obtain ⟨k', v'⟩ := p
      by_cases hk : k' = k
      · subst hk
        simp [mapGet] at h
        simp [h]
      · simp [mapGet, hk] at h
        exact List.mem_cons_of_mem _ (ih h)

theorem mapGet_mapSet_same {α : Type} (m : List (String × α)) (k : String)
    (v : α) : mapGet (mapSet m k v) k = some v := by
  induction m with
  | nil => simp [mapSet, mapGet]
  | cons p rest ih =>
      obtain ⟨k', v'⟩ := p
      by_cases hk : k' = k
      · simp [mapSet, mapGet, hk]
      · simp [mapSet, mapGet, hk, ih]

theorem invariantCT_mapSet {rooms : Rooms} {k : String} {r : Room}
    (h : invariantCT rooms) (hr : 0 ≤ r.currentTime) :
    invariantCT (mapSet rooms k r) := by
  induction rooms with
  | nil =>
      intro p hp
      simp [mapSet] at hp
      simp [hp, hr]
  | cons q rest ih =>
      obtain ⟨k', r'⟩ := q
      have hhead : 0 ≤ r'.currentTime := h _ (List.mem_cons_self _ _)
      have htail : invariantCT rest := fun p hp => h p (List.mem_cons_of_mem _ hp)
      intro p hp
      by_cases hk : k' = k
      · simp [mapSet, hk] at hp
        rcases hp with hp | hp
        · simp [hp, hr]
        · exact htail p hp
      · simp [mapSet, hk] at hp
        rcases hp with hp | hp
        · simp [hp]
          exact hhead
        · exact ih htail p hp

theorem invariantCT_mem {rooms : Rooms} {roomId : String} {room : Room}
    (h : invariantCT rooms) (hg : mapGet rooms roomId = some room) :
    0 ≤ room.currentTime :=
  h _ (mapGet_mem hg)

theorem invariantCT_disconnectScan {rooms : Rooms} (sid : String)
    (h : invariantCT rooms) : invariantCT (disconnectScan sid rooms).1 := by
  induction rooms with
  | nil =>
      intro p hp
      simp [disconnectScan] at hp
  | cons q rest ih =>
      obtain ⟨rid, room⟩ := q
      have hhead : 0 ≤ room.currentTime := h _ (List.mem_cons_self _ _)
      have htail : invariantCT rest := fun p hp => h p (List.mem_cons_of_mem _ hp)
      by_cases hu : mapHasKey room.users sid
      · by_cases hh : room.hostId = sid
        · simpa [disconnectScan, hu, hh] using htail
        · intro p hp
          simp [disconnectScan, hu, hh] at hp
          rcases hp with hp | hp
          · simp [hp]
            exact hhead
          · exact htail p hp
      · intro p hp
        simp [disconnectScan, hu] at hp
        rcases hp with hp | hp
        · simp [hp]
          exact hhead
        · exact ih htail p hp

theorem handleJoinRoom_inv {rooms : Rooms} {sid roomId nickname : String}
    {password : Option String} (h : invariantCT rooms) :
    invariantCT (handleJoinRoom rooms sid roomId nickname password).1 := by
  cases hg : mapGet rooms roomId with
  | none => simpa [handleJoinRoom, hg] using h
  | some room =>
      simp only [handleJoinRoom, hg]
      split
      · exact h
      · refine invariantCT_mapSet h ?_
        show 0 ≤ room.currentTime
        exact invariantCT_mem h hg

theorem handleHostCurrentTimeUpdate_inv {rooms : Rooms} {sid roomId : String}
    {t : Int} (h : invariantCT rooms) (h0 : (0 : Int) ≤ t) :
    invariantCT (handleHostCurrentTimeUpdate rooms sid roomId t).1 := by
  cases hg : mapGet rooms roomId with
  | none => simpa [handleHostCurrentTimeUpdate, hg] using h
  | some room =>
      simp only [handleHostCurrentTimeUpdate, hg]
      split
      · exact h
      · refine invariantCT_mapSet h ?_
        exact h0

theorem handleVideoPlay_inv {rooms : Rooms} {sid roomId : String}
    (h : invariantCT rooms) : invariantCT (handleVideoPlay rooms sid roomId).1 := by
  cases hg : mapGet rooms roomId with
  | none => simpa [handleVideoPlay, hg] using h
  | some room =>
      simp only [handleVideoPlay, hg]
      split
      · exact h
      · refine invariantCT_mapSet h ?_
        show 0 ≤ room.currentTime
        exact invariantCT_mem h hg

theorem handleVideoPause_inv {rooms : Rooms} {sid roomId : String}
    (h : invariantCT rooms) : invariantCT (handleVideoPause rooms sid roomId).1 := by
  cases hg : mapGet rooms roomId with
  | none => simpa [handleVideoPause, hg] using h
  | some room =>
      simp only [handleVideoPause, hg]
      split
      · exact h
      · refine invariantCT_mapSet h ?_
        show 0 ≤ room.currentTime
        exact invariantCT_mem h hg

theorem handleVideoSeek_inv {rooms : Rooms} {sid roomId : String} {t : Int}
    (h : invariantCT rooms) (h0 : (0 : Int) ≤ t) :
    invariantCT (handleVideoSeek rooms sid roomId t).1 := by
  cases hg : mapGet rooms roomId with
  | none => simpa [handleVideoSeek, hg] using h
  | some room =>
      simp only [handleVideoSeek, hg]
      split
      · exact h
      · refine invariantCT_mapSet h ?_
        exact h0

theorem handleChangeVideo_inv {rooms : Rooms} {sid roomId newVideoId : String}
    (h : invariantCT rooms) :
    invariantCT (handleChangeVideo rooms sid roomId newVideoId).1 := by
  cases hg : mapGet rooms roomId with
  | none => simpa [handleChangeVideo, hg] using h
  | some room =>
      simp only [handleChangeVideo, hg]
      split
      · exact h
      · refine invariantCT_mapSet h ?_
        exact le_refl 0

theorem handleAddRecommendVideo_inv (rooms : Rooms) (sid roomId videoId : String)
    (h : invariantCT rooms) :
    invariantCT (handleAddRecommendVideo rooms sid roomId videoId).1 := by
  cases hg : mapGet rooms roomId with
  | none => simpa [handleAddRecommendVideo, hg] using h
  | some room =>
      simp only [handleAddRecommendVideo, hg]
      refine invariantCT_mapSet h ?_
      show 0 ≤ room.currentTime
      show 0 ≤ room.currentTime
      exact invariantCT_mem h hg

theorem handleVideoEnded_inv {rooms : Rooms} {sid roomId : String}
    (h : invariantCT rooms) : invariantCT (handleVideoEnded rooms sid roomId).1 := by
  cases hg : mapGet rooms roomId with
  | none => simpa [handleVideoEnded, hg] using h
  | some room =>
      simp only [handleVideoEnded, hg]
      split
      · exact h
      · cases hq : room.recommendQueue with
        | nil =>
            simp only [hq]
            refine invariantCT_mapSet h ?_
            show 0 ≤ room.currentTime
            exact invariantCT_mem h hg
        | cons next rest =>
            simp only [hq]
            refine invariantCT_mapSet h ?_
            exact le_refl 0

theorem handleBoreVote_inv {rooms : Rooms} {sid roomId : String}
    (h : invariantCT rooms) : invariantCT (handleBoreVote rooms sid roomId).1 := by
  cases hg : mapGet rooms roomId with
  | none => simpa [handleBoreVote, hg] using h
  | some room =>
      simp only [handleBoreVote, hg]
      split
      · exact h
      · split
        · cases hq : room.recommendQueue with
          | nil =>
              simp only [hq]
              refine invariantCT_mapSet h ?_
              show 0 ≤ room.currentTime
              show 0 ≤ room.currentTime
              exact invariantCT_mem h hg
          | cons next rest =>
              simp only [hq]
              refine invariantCT_mapSet h ?_
              exact le_refl 0
        · refine invariantCT_mapSet h ?_
          show 0 ≤ room.currentTime
          show 0 ≤ room.currentTime
          exact invariantCT_mem h hg

theorem handleSkipRequest_inv {rooms : Rooms} {sid roomId direction : String}
    (h : invariantCT rooms) :
    invariantCT (handleSkipRequest rooms sid roomId direction).1 := by
  cases hg : mapGet rooms roomId with
  | none => simpa [handleSkipRequest, hg] using h
  | some room =>
      simp only [handleSkipRequest, hg]
      split
      · exact h
      · split
        · refine invariantCT_mapSet h ?_
          exact le_max_right _ _
        · refine invariantCT_mapSet h ?_
          show 0 ≤ room.currentTime
          show 0 ≤ room.currentTime
          exact invariantCT_mem h hg

theorem handleSkipExpire_inv {rooms : Rooms} {sid roomId direction : String}
    (h : invariantCT rooms) :
    invariantCT (handleSkipExpire rooms sid roomId direction).1 := by
  cases hg : mapGet rooms roomId with
  | none => simpa [handleSkipExpire, hg] using h
  | some room =>
      simp only [handleSkipExpire, hg]
      refine invariantCT_mapSet h ?_
      show 0 ≤ room.currentTime
      show 0 ≤ room.currentTime
      exact invariantCT_mem h hg

theorem step_preserves_invariantCT {rooms : Rooms} {e : Event}
    (h : invariantCT rooms) (ht : timesOk e = true) :
    invariantCT (step rooms e).1 := by
  cases e with
  | createRoom sid roomId videoId password =>
      refine invariantCT_mapSet h ?_
      exact le_refl 0
  | joinRoom sid roomId nickname password => exact handleJoinRoom_inv h
  | hostCurrentTimeUpdate sid roomId t =>
      exact handleHostCurrentTimeUpdate_inv h (by simpa [timesOk] using ht)
  | videoPlay sid roomId => exact handleVideoPlay_inv h
  | videoPause sid roomId => exact handleVideoPause_inv h
  | videoSeek sid roomId t =>
      exact handleVideoSeek_inv h (by simpa [timesOk] using ht)
  | changeVideo sid roomId newVideoId => exact handleChangeVideo_inv h
  | addRecommendVideo sid roomId videoId =>
      exact handleAddRecommendVideo_inv rooms sid roomId videoId h
  | videoEnded sid roomId => exact handleVideoEnded_inv h
  | boreVote sid roomId => exact handleBoreVote_inv h
  | skipRequest sid roomId direction => exact handleSkipRequest_inv h
  | skipExpire sid roomId direction => exact handleSkipExpire_inv h
  | disconnect sid => exact invariantCT_disconnectScan sid h

/-- C1 counterexample: the claim as stated is false — a `video_seek` issued
by the host with a negative time is stored verbatim (the seek handler does
not clamp), so after the sequence create-room followed by host seek to -5
the room's `currentTime` is -5, violating `currentTime ≥ 0`. -/
theorem C1_counterexample :
    ¬ invariantCT (processAll []
      [Event.createRoom "h" "r" "v" none,
       Event.videoSeek "h" "r" (-5)]) := by
  decide

/-- C1 (amended): for every registry whose rooms all have nonnegative
`currentTime` and every sequence of handled events in which each
`video_seek` and each `host_current_time_update` carries a nonnegative time,
every room's `currentTime` is still nonnegative after processing the whole
sequence (and hence after each event); in particular the skip-quorum effect
`max (currentTime + delta) 0` and every other handler preserve the bound
unconditionally. -/
theorem C1_currentTime_nonneg (rooms : Rooms) (es : List Event)
    (hinv : invariantCT rooms) (hts : ∀ e ∈ es, timesOk e = true) :
    invariantCT (processAll rooms es) := by
  induction es generalizing rooms with
  | nil => simpa [processAll] using hinv
  | cons e rest ih =>
      have h1 := step_preserves_invariantCT hinv (hts e (List.mem_cons_self _ _))
      have h2 : ∀ e' ∈ rest, timesOk e' = true :=
        fun e' he' => hts e' (List.mem_cons_of_mem _ he')
      simpa [processAll] using ih (step rooms e).1 h1 h2

/-- Witness for the amended C1 at a concrete run: create, host join, a
nonnegative seek, and a skip request that fires quorum. -/
theorem C1_currentTime_nonneg_witness :
    invariantCT ([] : Rooms) ∧
      invariantCT (processAll []
        [Event.createRoom "h" "r" "v" none,
         Event.joinRoom "h" "r" "host" none,
         Event.videoSeek "h" "r" 7,
         Event.skipRequest "h" "r" "backward"]) :=
  ⟨by decide, C1_currentTime_nonneg [] _ (by decide) (by decide)⟩


theorem mem_addSet_self (s : List String) (x : String) : x ∈ addSet s x := by
  unfold addSet
  split
  · assumption
  · simp

theorem addSet_ne_nil (s : List String) (x : String) : addSet s x ≠ [] := by
  unfold addSet
  split
  · intro hnil
    subst hnil
    simp_all
  · simp

theorem objGet_mapSet_same (m : List (String × Nat)) (k : String) (v : Nat) :
    objGet (mapSet m k v) k = v := by
  simp [objGet, mapGet_mapSet_same]

theorem mapGet_eq_none {α : Type} {m : List (String × α)} {k : String}
    (h : ∀ e ∈ m, e.1 ≠ k) : mapGet m k = none := by
  induction m with
  | nil => rfl
  | cons p rest ih =>
      obtain ⟨k', v⟩ := p
      have hk : k' ≠ k := h (k', v) (List.mem_cons_self _ _)
      simp only [mapGet, if_neg hk]
      exact ih fun e he => h e (List.mem_cons_of_mem _ he)

/-- Characterization of a skip request on an existing room by a connection
with no pending skip vote. -/
theorem handleSkipRequest_found {rooms : Rooms} {room : Room}
    {sid roomId direction : String}
    (hg : mapGet rooms roomId = some room) (hs : sid ∉ room.skipUsers) :
    handleSkipRequest rooms sid roomId direction =
      if 2 * (objGet room.skipCounts direction + 1) ≥ room.users.length then
        (mapSet rooms roomId { room with
            currentTime := max (room.currentTime +
              (if direction = "forward" then (10 : Int) else -10)) 0,
            skipCounts := [("forward", 0), ("backward", 0)], skipUsers := [] },
         [Out.toRoom roomId (Payload.videoSeekEv (max (room.currentTime +
            (if direction = "forward" then (10 : Int) else -10)) 0)),
          Out.toRoom roomId
            (Payload.skipCountsUpdate [("forward", 0), ("backward", 0)])])
      else
        (mapSet rooms roomId { room with
            skipCounts := mapSet room.skipCounts direction
              (objGet room.skipCounts direction + 1),
            skipUsers := addSet room.skipUsers sid },
         [Out.toRoom roomId (Payload.skipCountsUpdate
            (mapSet room.skipCounts direction
              (objGet room.skipCounts direction + 1)))]) := by
  simp only [handleSkipRequest, hg]
  rw [if_neg hs]

/-- Characterization of a bore vote on an existing room by a connection
with no pending bore vote. -/
theorem handleBoreVote_found {rooms : Rooms} {room : Room} {sid roomId : String}
    (hg : mapGet rooms roomId = some room) (hb : sid ∉ room.boreVotes) :
    handleBoreVote rooms sid roomId =
      if 2 * (addSet room.boreVotes sid).length > room.users.length then
        match room.recommendQueue with
        | next :: restQueue =>
            (mapSet rooms roomId { room with
                videoId := next, currentTime := 0, isPlaying := true,
                recommendQueue := restQueue, boreVotes := [] },
             [Out.toRoom roomId
                (Payload.boreVoteUpdate (addSet room.boreVotes sid).length),
              Out.toRoom roomId
                (Payload.videoChanged next 0 true [("forward", 0), ("backward", 0)]),
              Out.toRoom roomId (Payload.recommendQueueUpdated restQueue),
              Out.toRoom roomId (Payload.boreVoteUpdate 0)])
        | [] =>
            (mapSet rooms roomId { room with isPlaying := false, boreVotes := [] },
             [Out.toRoom roomId
                (Payload.boreVoteUpdate (addSet room.boreVotes sid).length),
              Out.toRoom roomId (Payload.boreVoteUpdate 0)])
      else
        (mapSet rooms roomId { room with boreVotes := addSet room.boreVotes sid },
         [Out.toRoom roomId
            (Payload.boreVoteUpdate (addSet room.boreVotes sid).length)]) := by
  simp only [handleBoreVote, hg]
  rw [if_neg hb]

/-- Reusable concrete room for the witnesses: host "h" joined together with
guest "g", playback at 3 seconds. -/
def roomA : Room :=
  { hostId := "h", videoId := "v", currentTime := 3, isPlaying := true,
    skipCounts := [("forward", 0), ("backward", 0)], skipUsers := [],
    users := [("h", "host"), ("g", "guest")], password := none,
    boreVotes := [], recommendQueue := [] }

/-- C2: every host-only command (video_play, video_pause, video_seek,
change_video, host_current_time_update, video_ended) issued by a connection
that is not the room's host leaves the registry completely unchanged and
emits no outbound event at all — no playback broadcast and no error to the
caller. -/
theorem C2_nonhost_commands_silent (rooms : Rooms) (room : Room)
    (sid roomId newVideoId : String) (t : Int)
    (hg : mapGet rooms roomId = some room) (hh : sid ≠ room.hostId) :
    step rooms (Event.videoPlay sid roomId) = (rooms, []) ∧
    step rooms (Event.videoPause sid roomId) = (rooms, []) ∧
    step rooms (Event.videoSeek sid roomId t) = (rooms, []) ∧
    step rooms (Event.changeVideo sid roomId newVideoId) = (rooms, []) ∧
    step rooms (Event.hostCurrentTimeUpdate sid roomId t) = (rooms, []) ∧
    step rooms (Event.videoEnded sid roomId) = (rooms, []) := by
  refine ⟨?_, ?_, ?_, ?_, ?_, ?_⟩ <;>
    simp [step, handleVideoPlay, handleVideoPause, handleVideoSeek,
      handleChangeVideo, handleHostCurrentTimeUpdate, handleVideoEnded, hg, hh]

/-- Witness for C2: guest "g" seeks in a room hosted by "h"; nothing
happens. -/
theorem C2_nonhost_commands_silent_witness :
    mapGet [("r", roomA)] "r" = some roomA ∧ "g" ≠ roomA.hostId ∧
      step [("r", roomA)] (Event.videoSeek "g" "r" (-7)) = ([("r", roomA)], []) :=
  ⟨by decide, by decide,
    (C2_nonhost_commands_silent [("r", roomA)] roomA "g" "r" "w" (-7)
      (by decide) (by decide)).2.2.1⟩

/-- C3: for a skip request by a connection with no pending vote, the quorum
effect fires exactly when the voted direction's tally, after the increment,
is at least half the participant count (`count >= size / 2`, written
`2 * count >= size`); the effect sets `currentTime` to
`max (currentTime + delta) 0` with delta +10 for "forward" and -10 for
"backward", broadcasts the new time as a seek to the whole room, and leaves
both tallies at 0 and the skip voter set empty, with the reset tally
broadcast to the whole room. -/
theorem C3_skip_quorum (rooms : Rooms) (room : Room)
    (sid roomId direction : String)
    (hg : mapGet rooms roomId = some room) (hs : sid ∉ room.skipUsers)
    (hd : direction = "forward" ∨ direction = "backward") :
    ((∃ t, Out.toRoom roomId (Payload.videoSeekEv t) ∈
        (step rooms (Event.skipRequest sid roomId direction)).2) ↔
      2 * (objGet room.skipCounts direction + 1) ≥ room.users.length) ∧
    (2 * (objGet room.skipCounts direction + 1) ≥ room.users.length →
      mapGet (step rooms (Event.skipRequest sid roomId direction)).1 roomId =
        some { room with
          currentTime := max (room.currentTime +
            (if direction = "forward" then (10 : Int) else -10)) 0,
          skipCounts := [("forward", 0), ("backward", 0)], skipUsers := [] } ∧
      Out.toRoom roomId (Payload.videoSeekEv (max (room.currentTime +
          (if direction = "forward" then (10 : Int) else -10)) 0)) ∈
        (step rooms (Event.skipRequest sid roomId direction)).2 ∧
      Out.toRoom roomId
          (Payload.skipCountsUpdate [("forward", 0), ("backward", 0)]) ∈
        (step rooms (Event.skipRequest sid roomId direction)).2) := by
  have hchar := @handleSkipRequest_found rooms room sid roomId direction hg hs
  by_cases hq : 2 * (objGet room.skipCounts direction + 1) ≥ room.users.length
  · constructor
    · constructor
      · intro _
        exact hq
      · intro _
        refine ⟨max (room.currentTime +
          (if direction = "forward" then (10 : Int) else -10)) 0, ?_⟩
        simp [step, hchar, if_pos hq]
    · intro _
      refine ⟨?_, ?_, ?_⟩
      · simp [step, hchar, if_pos hq, mapGet_mapSet_same]
      · simp [step, hchar, if_pos hq]
      · simp [step, hchar, if_pos hq]
  · constructor
    · constructor
      · intro ht
        obtain ⟨t, ht⟩ := ht
        simp [step, hchar, if_neg hq] at ht
      · intro hq2
        exact absurd hq2 hq
    · intro hq2
      exact absurd hq2 hq

/-- Witness for C3: in a two-participant room, guest "g" casting forward
reaches the tally 1 and quorum 2*1 >= 2, seeking from 3 to 13. -/
theorem C3_skip_quorum_witness :
    mapGet [("r", roomA)] "r" = some roomA ∧ "g" ∉ roomA.skipUsers ∧
      2 * (objGet roomA.skipCounts "forward" + 1) ≥ roomA.users.length ∧
      mapGet (step [("r", roomA)] (Event.skipRequest "g" "r" "forward")).1 "r" =
        some { roomA with
          currentTime := 13,
          skipCounts := [("forward", 0), ("backward", 0)], skipUsers := [] } :=
  ⟨by decide, by decide, by decide, by
    have h := (C3_skip_quorum [("r", roomA)] roomA "g" "r" "forward"
      (by decide) (by decide) (Or.inl rfl)).2 (by decide)
    simpa [roomA] using h.1⟩

/-- C4: for a bore vote by a connection with no pending bore vote, the
quorum effect fires exactly when the bore-voter count, after the insertion,
is strictly greater than half the participant count (`size > totalUsers / 2`,
written `2 * size > totalUsers` — strict, unlike skip's greater-or-equal);
on quorum a non-empty recommendation queue is dequeued and the room becomes
the dequeued video at time 0 playing, with a `video_changed` broadcast, and
an empty queue instead just pauses; in both branches the bore-vote set ends
empty and a tally of 0 is broadcast. -/
theorem C4_bore_quorum (rooms : Rooms) (room : Room) (sid roomId : String)
    (hg : mapGet rooms roomId = some room) (hb : sid ∉ room.boreVotes) :
    ((∃ r', mapGet (step rooms (Event.boreVote sid roomId)).1 roomId = some r' ∧
        r'.boreVotes = []) ↔
      2 * (addSet room.boreVotes sid).length > room.users.length) ∧
    (2 * (addSet room.boreVotes sid).length > room.users.length →
      (∀ next rest, room.recommendQueue = next :: rest →
        mapGet (step rooms (Event.boreVote sid roomId)).1 roomId =
          some { room with
            videoId := next, currentTime := 0, isPlaying := true,
            recommendQueue := rest, boreVotes := [] } ∧
        Out.toRoom roomId
            (Payload.videoChanged next 0 true [("forward", 0), ("backward", 0)]) ∈
          (step rooms (Event.boreVote sid roomId)).2) ∧
      (room.recommendQueue = [] →
        mapGet (step rooms (Event.boreVote sid roomId)).1 roomId =
          some { room with isPlaying := false, boreVotes := [] }) ∧
      Out.toRoom roomId (Payload.boreVoteUpdate 0) ∈
        (step rooms (Event.boreVote sid roomId)).2) := by
  have hchar := handleBoreVote_found hg hb
  by_cases hq : 2 * (addSet room.boreVotes sid).length > room.users.length
  · refine ⟨⟨fun _ => hq, fun _ => ?_⟩, fun _ => ⟨?_, ?_, ?_⟩⟩
    · cases hqu : room.recommendQueue with
      | nil =>
          refine ⟨{ room with isPlaying := false, boreVotes := [] }, ?_, rfl⟩
          simp [step, hchar, if_pos hq, hqu, mapGet_mapSet_same]
      | cons next rest =>
          refine ⟨{ room with
            videoId := next, currentTime := 0, isPlaying := true,
            recommendQueue := rest, boreVotes := [] }, ?_, rfl⟩
          simp [step, hchar, if_pos hq, hqu, mapGet_mapSet_same]
    · intro next rest hqu
      constructor
      · simp [step, hchar, if_pos hq, hqu, mapGet_mapSet_same]
      · simp [step, hchar, if_pos hq, hqu]
    · intro hqu
      simp [step, hchar, if_pos hq, hqu, mapGet_mapSet_same]
    · cases hqu : room.recommendQueue with
      | nil => simp [step, hchar, if_pos hq, hqu]
      | cons next rest => simp [step, hchar, if_pos hq, hqu]
  · refine ⟨⟨fun hr => ?_, fun hq2 => absurd hq2 hq⟩, fun hq2 => absurd hq2 hq⟩
    obtain ⟨r', hr', hempty⟩ := hr
    rw [show (step rooms (Event.boreVote sid roomId)).1
        = mapSet rooms roomId { room with boreVotes := addSet room.boreVotes sid } by
      simp [step, hchar, if_neg hq]] at hr'
    rw [mapGet_mapSet_same] at hr'
    have : r'.boreVotes = addSet room.boreVotes sid := by
      cases hr'
      rfl
    rw [this] at hempty
    exact absurd hempty (addSet_ne_nil _ _)

/-- Witness for C4: in the two-participant room, one bore vote gives tally
1 and 2*1 > 2 fails, so no quorum: the reverse iff direction yields the
strict-comparator boundary; then with an extra stale voter the quorum fires
on the empty queue and pauses. -/
theorem C4_bore_quorum_witness :
    mapGet [("r", roomA)] "r" = some roomA ∧ "g" ∉ roomA.boreVotes ∧
      ¬ 2 * (addSet roomA.boreVotes "g").length > roomA.users.length ∧
      ¬ (∃ r', mapGet (step [("r", roomA)] (Event.boreVote "g" "r")).1 "r" =
          some r' ∧ r'.boreVotes = []) :=
  ⟨by decide, by decide, by decide, by
    have h := (C4_bore_quorum [("r", roomA)] roomA "g" "r"
      (by decide) (by decide)).1
    intro hr
    exact absurd (h.1 hr) (by decide)⟩

/-- The registry delete performed by the disconnect handler when the
departing connection is the host of the first room containing it. -/
theorem disconnectScan_host (pre post : Rooms) (roomId : String) (room : Room)
    (hpre : ∀ e ∈ pre, mapHasKey e.2.users room.hostId = false)
    (hmem : mapHasKey room.users room.hostId = true) :
    disconnectScan room.hostId (pre ++ (roomId, room) :: post) =
      (pre ++ post, [Out.toRoom roomId Payload.roomClosed,
        Out.socketsLeave roomId]) := by
  induction pre with
  | nil => simp [disconnectScan, hmem]
  | cons p rest ih =>
      obtain ⟨rid, r⟩ := p
      have h1 : mapHasKey r.users room.hostId = false :=
        hpre (rid, r) (List.mem_cons_self _ _)
      have ih2 := ih fun e he => hpre e (List.mem_cons_of_mem _ he)
      simp [disconnectScan, h1, ih2]

/-- C5 counterexample: the claim as stated is false — the disconnect
handler only processes rooms whose participant map contains the departing
connection, and the host is added to the participant map only at join time;
a host who created the room but never joined leaves the room alive in the
registry after disconnecting. -/
theorem C5_counterexample :
    mapGet (processAll []
      [Event.createRoom "h" "r" "v" none, Event.disconnect "h"]) "r" ≠
      none := by
  decide

/-- C5 (amended): when the host's connection disconnects and the host had
joined its room (is in the participant map), with that room the first in
registry order containing the connection (the spec's at-most-one-membership
assumption) and its id unique, the room is removed from the registry, a
room-closed notification is broadcast to the room's group, the eviction of
every remaining connection from the group is issued, and a subsequent
join_room with that room id yields the not-found error and changes
nothing. -/
theorem C5_host_disconnect (pre post : Rooms) (roomId : String) (room : Room)
    (joiner nickname : String) (pw : Option String)
    (hpre : ∀ e ∈ pre, mapHasKey e.2.users room.hostId = false)
    (hmem : mapHasKey room.users room.hostId = true)
    (hid : ∀ e ∈ pre ++ post, e.1 ≠ roomId) :
    step (pre ++ (roomId, room) :: post) (Event.disconnect room.hostId) =
      (pre ++ post, [Out.toRoom roomId Payload.roomClosed,
        Out.socketsLeave roomId]) ∧
    mapGet (pre ++ post) roomId = none ∧
    step (pre ++ post) (Event.joinRoom joiner roomId nickname pw) =
      (pre ++ post,
       [Out.toSender joiner (Payload.errorMsg "존재하지 않는 방입니다.")]) := by
  have hnone : mapGet (pre ++ post) roomId = none := mapGet_eq_none hid
  refine ⟨?_, hnone, ?_⟩
  · exact disconnectScan_host pre post roomId room hpre hmem
  · simp [step, handleJoinRoom, hnone]

/-- Witness for C5: host "h" had joined room "r"; its disconnect deletes
the room and a subsequent join is refused. -/
theorem C5_host_disconnect_witness :
    mapHasKey roomA.users roomA.hostId = true ∧
      step [("r", roomA)] (Event.disconnect roomA.hostId) =
        ([], [Out.toRoom "r" Payload.roomClosed, Out.socketsLeave "r"]) ∧
      step ([] : Rooms) (Event.joinRoom "g" "r" "guest" none) =
        ([], [Out.toSender "g" (Payload.errorMsg "존재하지 않는 방입니다.")]) := by
  have h := C5_host_disconnect [] [] "r" roomA "g" "guest" none
    (by decide) (by decide) (by decide)
  exact ⟨by decide, by simpa using h.1, by simpa using h.2.2⟩

/-- C6 counterexample: the claim as stated is false — change_video clears
the skip tallies and the skip voter set but never clears the bore-vote set:
after guest "g" casts a bore vote (no quorum in the two-participant room)
and host "h" changes the video, the bore-vote set still contains "g". -/
theorem C6_counterexample :
    (mapGet (processAll [("r", roomA)]
      [Event.boreVote "g" "r", Event.changeVideo "h" "r" "v2"]) "r").map
        Room.boreVotes = some ["g"] ∧ some ["g"] ≠ some ([] : List String) := by
  constructor
  · decide
  · decide

/-- C6 (amended): change_video issued by the host resets `currentTime` to
0, clears the skip vote state (tallies and voter set), sets `isPlaying` to
true, and broadcasts the full new state to the whole room including the
host — but it leaves the bore-vote set unchanged. -/
theorem C6_change_video (rooms : Rooms) (room : Room)
    (sid roomId newVideoId : String)
    (hg : mapGet rooms roomId = some room) (hh : sid = room.hostId) :
    step rooms (Event.changeVideo sid roomId newVideoId) =
      (mapSet rooms roomId { room with
        videoId := newVideoId, currentTime := 0, isPlaying := true,
        skipCounts := [("forward", 0), ("backward", 0)], skipUsers := [] },
       [Out.toRoom roomId
         (Payload.videoChanged newVideoId 0 true [("forward", 0), ("backward", 0)])]) ∧
    (mapGet (step rooms (Event.changeVideo sid roomId newVideoId)).1 roomId).map
      Room.boreVotes = some room.boreVotes := by
  subst hh
  constructor
  · simp [step, handleChangeVideo, hg]
  · simp [step, handleChangeVideo, hg, mapGet_mapSet_same]

/-- Witness for C6: the host changes the video of the sample room. -/
theorem C6_change_video_witness :
    mapGet [("r", roomA)] "r" = some roomA ∧ "h" = roomA.hostId ∧
      (mapGet (step [("r", roomA)]
        (Event.changeVideo "h" "r" "v2")).1 "r").map Room.boreVotes =
        some roomA.boreVotes :=
  ⟨by decide, by decide,
    (C6_change_video [("r", roomA)] roomA "h" "r" "v2" (by decide) (by decide)).2⟩

/-- Reusable concrete room for the witnesses: host "h" joined together with
guests "a" and "b" (three participants), playback at 0. -/
def roomB : Room :=
  { hostId := "h", videoId := "v", currentTime := 0, isPlaying := true,
    skipCounts := [("forward", 0), ("backward", 0)], skipUsers := [],
    users := [("h", "host"), ("a", "ann"), ("b", "bob")], password := none,
    boreVotes := [], recommendQueue := [] }

/-- C7 counterexample: the claim as stated is false on its last clause — a
stale expiry does decrement a vote cast after the quorum reset.  In the
three-participant room, "a" votes forward (tally 1, no quorum), "b" votes
forward (tally 2, quorum fires and resets tallies and voters), the host
then casts a fresh forward vote (tally 1, voter set {"h"}), and when "a"'s
stale 2-second timer fires it decrements the forward tally to 0 while "h"
is still recorded as a pending voter. -/
theorem C7_counterexample :
    (mapGet (processAll [("r", roomB)]
      [Event.skipRequest "a" "r" "forward",
       Event.skipRequest "b" "r" "forward",
       Event.skipRequest "h" "r" "forward",
       Event.skipExpire "a" "r" "forward"]) "r").map
        (fun r => (objGet r.skipCounts "forward", r.skipUsers)) =
      some (0, ["h"]) := by
  decide

/-- C7 (amended): delivering the scheduled skip expiry for a voter and a
direction on an existing room always removes that voter from the skip voter
set and replaces the direction's tally c with c - 1 floored at zero
(truncated subtraction mirrors `Math.max(c - 1, 0)`), leaving the rest of
the room unchanged and rebroadcasting the tally; in particular a pending
vote is reversed by exactly one and its voter removed, and when a quorum
reset already cleared the state and no same-direction vote was cast since
(tally 0) the tally stays 0 and no voter is resurrected — but a
same-direction vote cast after the reset is decremented by the stale
expiry, as the counterexample shows. -/
theorem C7_skip_expiry (rooms : Rooms) (room : Room)
    (sid roomId direction : String)
    (hg : mapGet rooms roomId = some room) :
    step rooms (Event.skipExpire sid roomId direction) =
      (mapSet rooms roomId { room with
          skipUsers := room.skipUsers.erase sid,
          skipCounts := mapSet room.skipCounts direction
            (objGet room.skipCounts direction - 1) },
       [Out.toRoom roomId (Payload.skipCountsUpdate
          (mapSet room.skipCounts direction
            (objGet room.skipCounts direction - 1)))]) ∧
    objGet (mapSet room.skipCounts direction
        (objGet room.skipCounts direction - 1)) direction =
      objGet room.skipCounts direction - 1 ∧
    (objGet room.skipCounts direction = 0 →
      objGet (mapSet room.skipCounts direction
          (objGet room.skipCounts direction - 1)) direction = 0) := by
  refine ⟨?_, objGet_mapSet_same _ _ _, fun h0 => ?_⟩
  · simp [step, handleSkipExpire, hg]
  · rw [objGet_mapSet_same, h0]

/-- Witness for the amended C7: room with a single pending forward vote by
"a"; the expiry reverses it. -/
theorem C7_skip_expiry_witness :
    mapGet [("r", { roomB with
        skipCounts := [("forward", 1), ("backward", 0)],
        skipUsers := ["a"] })] "r" =
      some { roomB with
        skipCounts := [("forward", 1), ("backward", 0)], skipUsers := ["a"] } ∧
    step [("r", { roomB with
        skipCounts := [("forward", 1), ("backward", 0)], skipUsers := ["a"] })]
        (Event.skipExpire "a" "r" "forward") =
      (mapSet [("r", { roomB with
          skipCounts := [("forward", 1), ("backward", 0)], skipUsers := ["a"] })]
        "r"
        { roomB with
          skipUsers := (["a"] : List String).erase "a",
          skipCounts := mapSet [("forward", 1), ("backward", 0)] "forward"
            (objGet [("forward", 1), ("backward", 0)] "forward" - 1) },
       [Out.toRoom "r" (Payload.skipCountsUpdate
          (mapSet [("forward", 1), ("backward", 0)] "forward"
            (objGet [("forward", 1), ("backward", 0)] "forward" - 1)))]) :=
  ⟨by decide,
    (C7_skip_expiry _ { roomB with
        skipCounts := [("forward", 1), ("backward", 0)], skipUsers := ["a"] }
      "a" "r" "forward" (by decide)).1⟩

/-- C8: casting the same vote twice within one epoch is a no-op — if a
first skip request by a connection with no pending vote does not reach
quorum, an identical second skip request leaves the registry exactly as it
was after the first and emits nothing (the handler returns before touching
any state and before scheduling a new expiry); likewise a second bore vote
after a first that did not reach quorum. -/
theorem C8_double_vote_noop (rooms : Rooms) (room : Room)
    (sid roomId direction : String)
    (hg : mapGet rooms roomId = some room)
    (hs : sid ∉ room.skipUsers) (hb : sid ∉ room.boreVotes)
    (hq1 : 2 * (objGet room.skipCounts direction + 1) < room.users.length)
    (hq2 : ¬ 2 * (addSet room.boreVotes sid).length > room.users.length) :
    step (step rooms (Event.skipRequest sid roomId direction)).1
        (Event.skipRequest sid roomId direction) =
      ((step rooms (Event.skipRequest sid roomId direction)).1, []) ∧
    step (step rooms (Event.boreVote sid roomId)).1
        (Event.boreVote sid roomId) =
      ((step rooms (Event.boreVote sid roomId)).1, []) := by
  constructor
  · have h1 : (step rooms (Event.skipRequest sid roomId direction)).1 =
        mapSet rooms roomId { room with
          skipCounts := mapSet room.skipCounts direction
            (objGet room.skipCounts direction + 1),
          skipUsers := addSet room.skipUsers sid } := by
      simp [step, handleSkipRequest_found hg hs, if_neg (not_le.mpr hq1)]
    rw [h1]
    simp [step, handleSkipRequest, mapGet_mapSet_same, mem_addSet_self]
  · have h1 : (step rooms (Event.boreVote sid roomId)).1 =
        mapSet rooms roomId { room with boreVotes := addSet room.boreVotes sid } := by
      simp [step, handleBoreVote_found hg hb, if_neg hq2]
    rw [h1]
    simp [step, handleBoreVote, mapGet_mapSet_same, mem_addSet_self]

/-- Witness for C8: in the three-participant room, guest "a" double-casts a
forward skip vote and a bore vote; the second casts are no-ops. -/
theorem C8_double_vote_noop_witness :
    2 * (objGet roomB.skipCounts "forward" + 1) < roomB.users.length ∧
      step (step [("r", roomB)] (Event.skipRequest "a" "r" "forward")).1
          (Event.skipRequest "a" "r" "forward") =
        ((step [("r", roomB)] (Event.skipRequest "a" "r" "forward")).1, []) ∧
      step (step [("r", roomB)] (Event.boreVote "a" "r")).1
          (Event.boreVote "a" "r") =
        ((step [("r", roomB)] (Event.boreVote "a" "r")).1, []) := by
  have h := C8_double_vote_noop [("r", roomB)] roomB "a" "r" "forward"
    (by decide) (by decide) (by decide) (by decide) (by decide)
  exact ⟨by decide, h.1, h.2⟩

/-- C9: skip_request and bore_vote never check that the sender is in the
room's participant map — a connection that never joined (or already left)
still has its vote recorded in the voter set and its tally counted, the
participant map is left unchanged without it, and the quorum threshold is
computed from that participant count (2 * tally against `users.length` for
skip, including the quorum branch whose effect it can trigger). -/
theorem C9_nonparticipant_votes (rooms : Rooms) (room : Room)
    (sid roomId direction : String)
    (hg : mapGet rooms roomId = some room)
    (hs : sid ∉ room.skipUsers) (hb : sid ∉ room.boreVotes)
    (hu : mapHasKey room.users sid = false) :
    (2 * (objGet room.skipCounts direction + 1) < room.users.length →
      ∃ r', mapGet (step rooms (Event.skipRequest sid roomId direction)).1
          roomId = some r' ∧
        sid ∈ r'.skipUsers ∧
        objGet r'.skipCounts direction = objGet room.skipCounts direction + 1 ∧
        r'.users = room.users ∧ mapHasKey r'.users sid = false) ∧
    (2 * (objGet room.skipCounts direction + 1) ≥ room.users.length →
      ∃ r', mapGet (step rooms (Event.skipRequest sid roomId direction)).1
          roomId = some r' ∧
        r'.currentTime = max (room.currentTime +
          (if direction = "forward" then (10 : Int) else -10)) 0) ∧
    (¬ 2 * (addSet room.boreVotes sid).length > room.users.length →
      ∃ r', mapGet (step rooms (Event.boreVote sid roomId)).1 roomId = some r' ∧
        sid ∈ r'.boreVotes ∧ r'.users = room.users ∧
        mapHasKey r'.users sid = false) := by
  refine ⟨fun hq => ?_, fun hq => ?_, fun hq => ?_⟩
  · refine ⟨{ room with
      skipCounts := mapSet room.skipCounts direction
        (objGet room.skipCounts direction + 1),
      skipUsers := addSet room.skipUsers sid }, ?_, ?_, ?_, rfl, hu⟩
    · simp [step, handleSkipRequest_found hg hs, if_neg (not_le.mpr hq),
        mapGet_mapSet_same]
    · exact mem_addSet_self _ _
    · exact objGet_mapSet_same _ _ _
  · refine ⟨{ room with
      currentTime := max (room.currentTime +
        (if direction = "forward" then (10 : Int) else -10)) 0,
      skipCounts := [("forward", 0), ("backward", 0)], skipUsers := [] },
      ?_, rfl⟩
    simp [step, handleSkipRequest_found hg hs, if_pos hq, mapGet_mapSet_same]
  · refine ⟨{ room with boreVotes := addSet room.boreVotes sid },
      ?_, mem_addSet_self _ _, rfl, hu⟩
    simp [step, handleBoreVote_found hg hb, if_neg hq, mapGet_mapSet_same]

/-- Witness for C9: connection "x", never a participant of the
three-participant room, casts a forward skip vote and a bore vote; both are
recorded. -/
theorem C9_nonparticipant_votes_witness :
    mapHasKey roomB.users "x" = false ∧
      (∃ r', mapGet (step [("r", roomB)]
          (Event.skipRequest "x" "r" "forward")).1 "r" = some r' ∧
        "x" ∈ r'.skipUsers ∧
        objGet r'.skipCounts "forward" = objGet roomB.skipCounts "forward" + 1 ∧
        r'.users = roomB.users ∧ mapHasKey r'.users "x" = false) ∧
      (∃ r', mapGet (step [("r", roomB)] (Event.boreVote "x" "r")).1 "r" =
          some r' ∧
        "x" ∈ r'.boreVotes ∧ r'.users = roomB.users ∧
        mapHasKey r'.users "x" = false) := by
  have h := C9_nonparticipant_votes [("r", roomB)] roomB "x" "r" "forward"
    (by decide) (by decide) (by decide) (by decide)
  exact ⟨by decide, h.1 (by decide), h.2.2 (by decide)⟩

/-- C10: a skip_request whose direction is any string other than "forward"
or "backward" still records the vote — the tally entry under that key is
created or incremented starting from 0 if absent, the quorum check runs on
that key against the participant count, and a quorum applies the backward
delta of -10 seconds, since only the exact string "forward" maps to +10. -/
theorem C10_arbitrary_direction (rooms : Rooms) (room : Room)
    (sid roomId direction : String)
    (hg : mapGet rooms roomId = some room) (hs : sid ∉ room.skipUsers)
    (hf : direction ≠ "forward") (hback : direction ≠ "backward") :
    (2 * (objGet room.skipCounts direction + 1) < room.users.length →
      ∃ r', mapGet (step rooms (Event.skipRequest sid roomId direction)).1
          roomId = some r' ∧
        objGet r'.skipCounts direction = objGet room.skipCounts direction + 1 ∧
        sid ∈ r'.skipUsers) ∧
    (2 * (objGet room.skipCounts direction + 1) ≥ room.users.length →
      ∃ r', mapGet (step rooms (Event.skipRequest sid roomId direction)).1
          roomId = some r' ∧
        r'.currentTime = max (room.currentTime + (-10 : Int)) 0) := by
  constructor
  · intro hq
    refine ⟨{ room with
      skipCounts := mapSet room.skipCounts direction
        (objGet room.skipCounts direction + 1),
      skipUsers := addSet room.skipUsers sid },
      ?_, objGet_mapSet_same _ _ _, mem_addSet_self _ _⟩
    simp [step, handleSkipRequest_found hg hs, if_neg (not_le.mpr hq),
      mapGet_mapSet_same]
  · intro hq
    refine ⟨{ room with
      currentTime := max (room.currentTime +
        (if direction = "forward" then (10 : Int) else -10)) 0,
      skipCounts := [("forward", 0), ("backward", 0)], skipUsers := [] },
      ?_, ?_⟩
    · simp [step, handleSkipRequest_found hg hs, if_pos hq, mapGet_mapSet_same]
    · simp [if_neg hf]

/-- Witness for C10: direction "up" in the two-participant room reaches
quorum at one vote and applies the backward delta, clamping 3 - 10 at 0. -/
theorem C10_arbitrary_direction_witness :
    2 * (objGet roomA.skipCounts "up" + 1) ≥ roomA.users.length ∧
      (∃ r', mapGet (step [("r", roomA)]
          (Event.skipRequest "g" "r" "up")).1 "r" = some r' ∧
        r'.currentTime = max (roomA.currentTime + (-10 : Int)) 0) := by
  have h := C10_arbitrary_direction [("r", roomA)] roomA "g" "r" "up"
    (by decide) (by decide) (by decide) (by decide)
  exact ⟨by decide, h.2 (by decide)⟩

end WatchParty
